import Mathlib

/-
Shallow embedding of `apps/indexer/src/starknet_indexer/events.rs` (Starklane
repository) and verification of the specification's claims about it.

Field elements (`starknet::core::types::FieldElement`, values of the Stark
prime field, < 2^252) are modelled as `Nat`; sequences of field elements as
`List Nat`; Rust `Result<T>` as `Except DecodeError T`; Rust panics
(out-of-bounds indexing, `assert_eq!` failure) as an explicit `Outcome.panic`
constructor of the result type of the one function that can panic,
`get_store_data`.
-/

namespace Starklane

/-
Hex formatting.

The source renders field elements with Rust format specs `{:#64x}` (in
`felt_to_hex`), and `{:#32x}` / `{:32x}` (in `u256_to_hex`).  None of these
specs carries the `0` (sign-aware zero-pad) flag — that would be `{:#064x}`,
`{:#032x}`, `{:032x}`.  `FieldElement`'s custom `LowerHex` implementation
(starknet-ff) consults the requested width only when
`Formatter::sign_aware_zero_pad()` is set, and otherwise prints the minimal
lowercase hex digits of the value (a single `0` for zero), preceded by `0x`
when the `#` (alternate) flag is set; it writes directly to the formatter, so
no fill/width padding is applied either.  Hence every format spec appearing in
this source file renders a value `v` as its minimal lowercase hex digit string,
with a `0x` prepended exactly when `#` is present.

`hexCore` computes those minimal digits: it mirrors the nibble loop
(most-significant first, leading zeros skipped, `0` for the value zero),
written with explicit fuel so that it is structural recursion and reduces
inside the kernel.  `hexCore (n+1) n []` always has enough fuel, since the
recursion depth for `n` is at most `n`.
-/

/-- Minimal lowercase hex digits of `n`, most significant first, accumulated
onto `acc`; `fuel` bounds the recursion depth (any `fuel > n` is enough). -/
def hexCore : Nat → Nat → List Char → List Char
  | 0, _, acc => acc
  | fuel + 1, n, acc =>
    if n / 16 = 0 then Nat.digitChar (n % 16) :: acc
    else hexCore fuel (n / 16) (Nat.digitChar (n % 16) :: acc)

/-- Minimal lowercase hex digit list of `n` (`['0']` for `0`). -/
def hexDigits (n : Nat) : List Char := hexCore (n + 1) n []

/-- Numeric value of one lowercase hex digit character. -/
def hexVal (c : Char) : Nat := if c.toNat ≤ 57 then c.toNat - 48 else c.toNat - 87

/-- Value of a big-endian hex digit list. -/
def ofHexDigits (l : List Char) : Nat := l.foldl (fun a c => 16 * a + hexVal c) 0

/-
Protocol constants (events.rs lines 7-14).
-/

/-- Selector string for the `DepositRequestInitiated` event (events.rs line 7). -/
def DEPOSIT_REQUEST_INITIATED_SELECTOR : String :=
  "0x1682ccdc90fbee2d6cc3e930539cb4ca29390a438db1c2e4c7d493e01a61abb"

/-- Selector string for the `WithdrawRequestCompleted` event (events.rs line 10). -/
def WITHDRAW_REQUEST_COMPLETED_SELECTOR : String :=
  "0x132aab9714c265c8ad151ce006bb91691100722ddec42e7ee96dc9dfa9e741c"

/-- Header bitmask for auto-withdraw (events.rs line 13, `u128` constant). -/
def REQUEST_HEADER_WITHDRAW_AUTO : Nat := 0x01000000

/-- Header bitmask for auto-burn (events.rs line 14, `u128` constant). -/
def REQUEST_HEADER_BURN_AUTO : Nat := 0x010000

/-
Domain types.  `Request`, `Event`, `CrossChainTx`, `BridgeChain`, `EventLabel`,
`CrossChainTxKind` are imported by events.rs from `crate::storage`, which is not
under src/; their shapes are modelled from the spec (section 3, data model) and
from the fields/variants events.rs itself uses.
-/

/-- Modelled from the spec: the two bridge endpoints (`chain_src` enum,
`SourceChainA` = Starknet/L2, `SourceChainB` = Ethereum/L1); events.rs uses the
variants `BridgeChain::Starknet` and `BridgeChain::Ethereum`. -/
inductive BridgeChain
  | Starknet
  | Ethereum
  deriving DecidableEq

/-- Modelled from the spec: audit-event labels.  events.rs uses
`EventLabel::DepositInitiatedL2` and `EventLabel::WithdrawCompletedL2`;
`otherLabel` stands for the storage enum's remaining variants, which can reach
only the defensive `UnsupportedLabel` arm of `request_from_event_data`. -/
inductive EventLabel
  | DepositInitiatedL2
  | WithdrawCompletedL2
  | otherLabel
  deriving DecidableEq

/-- Modelled from the spec: kinds of derived outbound actions; events.rs uses
`CrossChainTxKind::WithdrawAuto` and `CrossChainTxKind::BurnAuto`. -/
inductive CrossChainTxKind
  | WithdrawAuto
  | BurnAuto
  deriving DecidableEq

/-- Modelled from the spec: the pending bridge request (`BridgeRequest` in the
spec, `crate::storage::Request` in the code), with the seven fields events.rs
populates. -/
structure Request where
  hash : String
  chain_src : BridgeChain
  collection_src : String
  collection_dst : String
  «from» : String
  «to» : String
  content : String
  deriving DecidableEq

/-- Modelled from the spec: the audit event (`AuditEvent` in the spec,
`crate::storage::Event` in the code).  `block_timestamp` is a fixed-width
unsigned 64-bit integer in storage (the spec's fixed-width timestamp type,
matching its unsigned 64-bit `block_number`); the `try_into` at events.rs
line 30 fails for key values `≥ 2^64`, so any value stored here is `< 2^64`. -/
structure Event where
  req_hash : String
  label : EventLabel
  block_timestamp : Nat
  block_number : Nat
  tx_hash : String
  deriving DecidableEq

/-- Modelled from the spec: one derived outbound action (`OutboundAction` in
the spec, `crate::storage::CrossChainTx` in the code). -/
structure CrossChainTx where
  chain : BridgeChain
  kind : CrossChainTxKind
  req_hash : String
  req_content : String
  tx_hash : String
  deriving DecidableEq

/-- The raw input event (`starknet::core::types::EmittedEvent`), restricted to
the four fields events.rs reads; the crate type also carries `from_address` and
`block_hash`, which the source never touches. -/
structure EmittedEvent where
  keys : List Nat
  data : List Nat
  block_number : Nat
  transaction_hash : Nat
  deriving DecidableEq

/-- The distinct failure messages events.rs produces through `anyhow`/`?`
(all are `anyhow::Error` at the Rust type level; the constructors record which
failure site fired, following the spec's error-kind names). -/
inductive DecodeError
  | InsufficientElements
  | MalformedEvent
  | UnsupportedLabel
  | HeaderOverflow
  | TimestampOverflow
  deriving DecidableEq

/-- The two ways `get_store_data` can panic: out-of-bounds indexing/slicing,
and `assert_eq!` failure (events.rs lines 50 and 58). -/
inductive PanicKind
  | indexOutOfBounds
  | assertionFailed
  deriving DecidableEq

/-- Result of running a fallible, possibly panicking Rust function. -/
inductive Outcome (α : Type)
  | panic (kind : PanicKind)
  | error (e : DecodeError)
  | ok (val : α)
  deriving DecidableEq

deriving instance DecidableEq for Except

/-
The embedded functions of events.rs.
-/

/-- events.rs lines 156-160:
`fn felt_to_hex(fe: &FieldElement) -> String { format!("{:#64x}", fe) }`.
The spec `{:#64x}` has the alternate flag and width 64 but not the `0` flag, so
`FieldElement`'s `LowerHex` ignores the width and prints `0x` followed by the
minimal lowercase hex digits of the value (see the formatting note above). -/
def felt_to_hex (fe : Nat) : String := "0x" ++ String.mk (hexDigits fe)

/-- events.rs lines 147-154:
`fn u256_to_hex(felts: &[FieldElement]) -> Result<String>` — errors when fewer
than two felts are given, else returns `format!("{:#32x}{:32x}", felts[1],
felts[0])`: `0x`, the minimal hex digits of `felts[1]`, then the minimal hex
digits of `felts[0]` with no `0x` of its own (neither spec has the `0` flag, so
no width padding is applied; the `felts.len() < 2` guard is rendered as the
pattern match below). -/
def u256_to_hex : List Nat → Except DecodeError String
  | f0 :: f1 :: _ =>
    .ok ("0x" ++ String.mk (hexDigits f1) ++ String.mk (hexDigits f0))
  | _ => .error .InsufficientElements

/-- events.rs lines 76-77: `serde_json::to_string` of the `Vec<Value>` holding
`json!(felt_to_hex(f))` for every data element, in order.  The rendered JSON is
a bracketed, comma-separated list of double-quoted strings; the strings are
`0x`-hex, so JSON string escaping never fires, and serialization cannot fail. -/
def contentJson (data : List Nat) : String :=
  "[" ++ String.intercalate "," (data.map (fun f => "\"" ++ felt_to_hex f ++ "\"")) ++ "]"

/-- events.rs lines 67-107: `fn request_from_event_data(event_label:
&EventLabel, data: Vec<FieldElement>) -> Result<Request>`.  The source first
rejects `data.len() < 7` (rendered as the 7-deep pattern), then builds the
content JSON from the full sequence, then fills the label-dependent field
layout; `data[1..]` is `data.drop 1`. -/
def request_from_event_data (event_label : EventLabel) (data : List Nat) :
    Except DecodeError Request :=
  match data with
  | _ :: _ :: _ :: d3 :: d4 :: d5 :: d6 :: _ =>
    let content := contentJson data
    match event_label with
    | .DepositInitiatedL2 =>
      match u256_to_hex (data.drop 1) with
      | .error e => .error e
      | .ok h =>
        .ok { hash := h, chain_src := .Starknet,
              collection_src := felt_to_hex d4, collection_dst := felt_to_hex d3,
              «from» := felt_to_hex d6, «to» := felt_to_hex d5, content := content }
    | .WithdrawCompletedL2 =>
      match u256_to_hex (data.drop 1) with
      | .error e => .error e
      | .ok h =>
        .ok { hash := h, chain_src := .Ethereum,
              collection_src := felt_to_hex d3, collection_dst := felt_to_hex d4,
              «from» := felt_to_hex d5, «to» := felt_to_hex d6, content := content }
    | .otherLabel => .error .UnsupportedLabel
  | _ => .error .MalformedEvent

/-- events.rs lines 110-145: `fn get_xchain_txs(header: FieldElement, req_hash:
String, req_content: String) -> Result<Vec<CrossChainTx>>`.  `header.try_into::
<u128>()` fails for values `≥ 2^128`; then the two masks are tested and one tx
is pushed per set mask, WithdrawAuto first, both targeting Ethereum with an
empty tx_hash. -/
def get_xchain_txs (header : Nat) (req_hash req_content : String) :
    Except DecodeError (List CrossChainTx) :=
  if 2 ^ 128 ≤ header then .error .HeaderOverflow
  else
    let can_withdraw_auto : Bool :=
      header &&& REQUEST_HEADER_WITHDRAW_AUTO == REQUEST_HEADER_WITHDRAW_AUTO
    let can_burn_auto : Bool :=
      header &&& REQUEST_HEADER_BURN_AUTO == REQUEST_HEADER_BURN_AUTO
    let txs : List CrossChainTx := []
    let txs := if can_withdraw_auto then
      txs ++ [{ chain := .Ethereum, kind := .WithdrawAuto, req_hash := req_hash,
                req_content := req_content, tx_hash := "" }] else txs
    let txs := if can_burn_auto then
      txs ++ [{ chain := .Ethereum, kind := .BurnAuto, req_hash := req_hash,
                req_content := req_content, tx_hash := "" }] else txs
    .ok txs

/-- events.rs lines 17-63: `fn get_store_data(event: EmittedEvent) ->
Result<(Option<Request>, Option<Event>, Vec<CrossChainTx>)>`, in source order:
slice `event.keys[1..]` (panics on empty keys), `u256_to_hex` of it (`?`),
read `event.keys[3]` and `event.data[0]` (each panics when absent), convert the
timestamp to `u64` (`?`, fails for values `≥ 2^64`), build the audit-event
skeleton, then dispatch on `felt_to_hex(&event.keys[0])`; the recognized arms
extract the request, the deposit arm additionally derives the cross-chain txs,
and both recognized arms `assert_eq!` the request hash against the key-derived
hash (a panic on mismatch) before returning. -/
def get_store_data (event : EmittedEvent) :
    Outcome (Option Request × Option Event × List CrossChainTx) :=
  match event.keys with
  | [] => .panic .indexOutOfBounds
  | k0 :: krest =>
    match u256_to_hex krest with
    | .error e => .error e
    | .ok hash =>
      match krest with
      | _ :: _ :: block_timestamp :: _ =>
        match event.data with
        | [] => .panic .indexOutOfBounds
        | request_header :: _ =>
          if 2 ^ 64 ≤ block_timestamp then .error .TimestampOverflow
          else
            let store_event : Event :=
              { req_hash := hash, label := .DepositInitiatedL2,
                block_timestamp := block_timestamp,
                block_number := event.block_number,
                tx_hash := felt_to_hex event.transaction_hash }
            if felt_to_hex k0 = DEPOSIT_REQUEST_INITIATED_SELECTOR then
              match request_from_event_data .DepositInitiatedL2 event.data with
              | .error e => .error e
              | .ok request =>
                match get_xchain_txs request_header request.hash request.content with
                | .error e => .error e
                | .ok txs =>
                  if request.hash = store_event.req_hash then
                    .ok (some request,
                         some { store_event with label := .DepositInitiatedL2 }, txs)
                  else .panic .assertionFailed
            else if felt_to_hex k0 = WITHDRAW_REQUEST_COMPLETED_SELECTOR then
              match request_from_event_data .WithdrawCompletedL2 event.data with
              | .error e => .error e
              | .ok request =>
                if request.hash = store_event.req_hash then
                  .ok (some request,
                       some { store_event with label := .WithdrawCompletedL2 }, [])
                else .panic .assertionFailed
            else .ok (none, none, [])
      | _ => .panic .indexOutOfBounds

theorem hexCore_eq_hexDigits_append (n : Nat) :
    ∀ fuel acc, n < fuel → hexCore fuel n acc = hexDigits n ++ acc := by
  induction n using Nat.strong_induction_on with
  | _ n ih =>
    intro fuel acc h
    match fuel, h with
    | fuel + 1, h =>
      by_cases h16 : n / 16 = 0
      · simp [hexCore, h16, hexDigits]
      · have hn : n ≠ 0 := by
          intro h0; subst h0; simp at h16
        have hlt : n / 16 < n := Nat.div_lt_self (Nat.pos_of_ne_zero hn) (by omega)
        have hfuel : n / 16 < fuel := by omega
        have h1 : hexCore (fuel + 1) n acc
            = hexCore fuel (n / 16) (Nat.digitChar (n % 16) :: acc) := by
          simp [hexCore, h16]
        have h2 : hexDigits n = hexCore n (n / 16) [Nat.digitChar (n % 16)] := by
          simp [hexDigits, hexCore, h16]
        rw [h1, ih (n / 16) hlt fuel _ hfuel, h2,
            ih (n / 16) hlt n _ (by omega), List.append_assoc]
        simp

theorem hexDigits_small (n : Nat) (h : n / 16 = 0) :
    hexDigits n = [Nat.digitChar (n % 16)] := by
  simp [hexDigits, hexCore, h]

theorem hexDigits_step (n : Nat) (h : n / 16 ≠ 0) :
    hexDigits n = hexDigits (n / 16) ++ [Nat.digitChar (n % 16)] := by
  have : hexDigits n = hexCore n (n / 16) [Nat.digitChar (n % 16)] := by
    simp [hexDigits, hexCore, h]
  rw [this]
  have hn : n ≠ 0 := by intro h0; subst h0; simp at h
  have hlt : n / 16 < n := Nat.div_lt_self (Nat.pos_of_ne_zero hn) (by omega)
  exact hexCore_eq_hexDigits_append (n / 16) n _ (by omega)

theorem hexVal_digitChar : ∀ m, m < 16 → hexVal (Nat.digitChar m) = m := by decide

theorem ofHexDigits_append_singleton (l : List Char) (c : Char) :
    ofHexDigits (l ++ [c]) = 16 * ofHexDigits l + hexVal c := by
  simp [ofHexDigits, List.foldl_append]

theorem ofHexDigits_hexDigits (n : Nat) : ofHexDigits (hexDigits n) = n := by
  induction n using Nat.strong_induction_on with
  | _ n ih =>
    by_cases h16 : n / 16 = 0
    · have hlt : n < 16 := by omega
      rw [hexDigits_small n h16]
      have : ofHexDigits [Nat.digitChar (n % 16)] = hexVal (Nat.digitChar (n % 16)) := by
        simp [ofHexDigits, hexVal]
      rw [this, hexVal_digitChar (n % 16) (by omega)]
      omega
    · have hn : n ≠ 0 := by intro h0; subst h0; simp at h16
      have hlt : n / 16 < n := Nat.div_lt_self (Nat.pos_of_ne_zero hn) (by omega)
      rw [hexDigits_step n h16, ofHexDigits_append_singleton,
          ih (n / 16) hlt, hexVal_digitChar (n % 16) (by omega)]
      omega

theorem hexDigits_injective {a b : Nat} (h : hexDigits a = hexDigits b) : a = b := by
  rw [← ofHexDigits_hexDigits a, ← ofHexDigits_hexDigits b, h]

theorem hexDigits_ne_nil (n : Nat) : hexDigits n ≠ [] := by
  by_cases h16 : n / 16 = 0
  · rw [hexDigits_small n h16]; simp
  · rw [hexDigits_step n h16]; simp

theorem hexDigits_head_ne_zero (n : Nat) (hn : n ≠ 0) :
    ∀ c t, hexDigits n = c :: t → c ≠ '0' := by
  induction n using Nat.strong_induction_on with
  | _ n ih =>
    intro c t hct
    by_cases h16 : n / 16 = 0
    · rw [hexDigits_small n h16] at hct
      have hm : n % 16 = n := Nat.mod_eq_of_lt (by omega)
      have hconst : ∀ m, m < 16 → m ≠ 0 → Nat.digitChar m ≠ '0' := by decide
      have : c = Nat.digitChar (n % 16) := by
        injection hct with h1 _
        exact h1.symm
      rw [this, hm]
      exact hconst n (by omega) hn
    · have hq : n / 16 ≠ 0 := h16
      have hlt : n / 16 < n :=
        Nat.div_lt_self (Nat.pos_of_ne_zero (by intro h0; subst h0; simp at h16)) (by omega)
      rw [hexDigits_step n h16] at hct
      obtain ⟨c', t', hct'⟩ : ∃ c' t', hexDigits (n / 16) = c' :: t' := by
        cases hh : hexDigits (n / 16) with
        | nil => exact absurd hh (hexDigits_ne_nil _)
        | cons x xs => exact ⟨x, xs, rfl⟩
      rw [hct'] at hct
      have : c = c' := by
        simp only [List.cons_append] at hct
        injection hct with h1 _
        exact h1.symm
      rw [this]
      exact ih (n / 16) hlt hq c' t' hct'

theorem hexDigits_lower (n : Nat) :
    ∀ c ∈ hexDigits n, c.isDigit = true ∨ ('a' ≤ c ∧ c ≤ 'f') := by
  induction n using Nat.strong_induction_on with
  | _ n ih =>
    intro c hc
    have hconst : ∀ m, m < 16 →
        (Nat.digitChar m).isDigit = true ∨ ('a' ≤ Nat.digitChar m ∧ Nat.digitChar m ≤ 'f') := by
      decide
    by_cases h16 : n / 16 = 0
    · rw [hexDigits_small n h16] at hc
      simp at hc
      rw [hc]
      exact hconst (n % 16) (by omega)
    · have hlt : n / 16 < n :=
        Nat.div_lt_self (Nat.pos_of_ne_zero (by intro h0; subst h0; simp at h16)) (by omega)
      rw [hexDigits_step n h16] at hc
      rcases List.mem_append.mp hc with h | h
      · exact ih (n / 16) hlt c h
      · simp at h
        rw [h]
        exact hconst (n % 16) (by omega)

/-
General helper lemmas.
-/

theorem exists_cons4 {α : Type} (l : List α) (h : 4 ≤ l.length) :
    ∃ a b c d t, l = a :: b :: c :: d :: t := by
  rcases l with _ | ⟨a, _ | ⟨b, _ | ⟨c, _ | ⟨d, t⟩⟩⟩⟩
  · simp at h
  · simp at h
  · simp at h
  · simp at h
  · exact ⟨a, b, c, d, t, rfl⟩

theorem exists_cons7 {α : Type} (l : List α) (h : 7 ≤ l.length) :
    ∃ a b c d e f g t, l = a :: b :: c :: d :: e :: f :: g :: t := by
  rcases l with _ | ⟨a, _ | ⟨b, _ | ⟨c, _ | ⟨d, _ | ⟨e, _ | ⟨f, _ | ⟨g, t⟩⟩⟩⟩⟩⟩⟩ <;>
    first
    | exact ⟨a, b, c, d, e, f, g, t, rfl⟩
    | (exfalso; simp at h)

theorem rfed_short (lbl : EventLabel) (data : List Nat) (h : data.length < 7) :
    request_from_event_data lbl data = .error .MalformedEvent := by
  rcases data with _ | ⟨a, _ | ⟨b, _ | ⟨c, _ | ⟨d, _ | ⟨e, _ | ⟨f, _ | ⟨g, t⟩⟩⟩⟩⟩⟩⟩ <;>
    first
    | rfl
    | (exfalso; simp at h; omega)

theorem rfed_ne_headerOverflow (lbl : EventLabel) (data : List Nat) :
    request_from_event_data lbl data ≠ .error .HeaderOverflow := by
  rcases data with _ | ⟨a, _ | ⟨b, _ | ⟨c, _ | ⟨d, _ | ⟨e, _ | ⟨f, _ | ⟨g, t⟩⟩⟩⟩⟩⟩⟩ <;>
    cases lbl <;> simp [request_from_event_data, u256_to_hex]

theorem rfed_hash (lbl : EventLabel)
    (hl : lbl = .DepositInitiatedL2 ∨ lbl = .WithdrawCompletedL2)
    (data : List Nat) (h7 : 7 ≤ data.length) :
    ∃ r, request_from_event_data lbl data = .ok r ∧
      u256_to_hex (data.drop 1) = .ok r.hash := by
  obtain ⟨a, b, c, x3, x4, x5, x6, t, rfl⟩ := exists_cons7 data h7
  rcases hl with rfl | rfl
  · exact ⟨_, rfl, rfl⟩
  · exact ⟨_, rfl, rfl⟩

theorem selectors_distinct :
    WITHDRAW_REQUEST_COMPLETED_SELECTOR ≠ DEPOSIT_REQUEST_INITIATED_SELECTOR := by
  decide

/-
Evaluation lemmas for `get_store_data` on each input shape.
-/

theorem gsd_keys0 (data : List Nat) (bn th : Nat) :
    get_store_data ⟨[], data, bn, th⟩ = .panic .indexOutOfBounds := rfl

theorem gsd_keys1 (k0 : Nat) (data : List Nat) (bn th : Nat) :
    get_store_data ⟨[k0], data, bn, th⟩ = .error .InsufficientElements := rfl

theorem gsd_keys2 (k0 k1 : Nat) (data : List Nat) (bn th : Nat) :
    get_store_data ⟨[k0, k1], data, bn, th⟩ = .error .InsufficientElements := rfl

theorem gsd_keys3 (k0 k1 k2 : Nat) (data : List Nat) (bn th : Nat) :
    get_store_data ⟨[k0, k1, k2], data, bn, th⟩ = .panic .indexOutOfBounds := rfl

theorem gsd_data0 (k0 k1 k2 k3 : Nat) (kt : List Nat) (bn th : Nat) :
    get_store_data ⟨k0 :: k1 :: k2 :: k3 :: kt, [], bn, th⟩ = .panic .indexOutOfBounds := rfl

theorem gsd_eval_ts (k0 k1 k2 k3 : Nat) (kt : List Nat) (d0 : Nat) (dt : List Nat)
    (bn th : Nat) (hts : 2 ^ 64 ≤ k3) :
    get_store_data ⟨k0 :: k1 :: k2 :: k3 :: kt, d0 :: dt, bn, th⟩
      = .error .TimestampOverflow := by
  simp only [get_store_data, u256_to_hex, if_pos hts]

theorem gsd_eval (k0 k1 k2 k3 : Nat) (kt : List Nat) (d0 : Nat) (dt : List Nat)
    (bn th : Nat) (hts : ¬ 2 ^ 64 ≤ k3) :
    get_store_data ⟨k0 :: k1 :: k2 :: k3 :: kt, d0 :: dt, bn, th⟩ =
      (if felt_to_hex k0 = DEPOSIT_REQUEST_INITIATED_SELECTOR then
        match request_from_event_data .DepositInitiatedL2 (d0 :: dt) with
        | .error e => .error e
        | .ok request =>
          match get_xchain_txs d0 request.hash request.content with
          | .error e => .error e
          | .ok txs =>
            if request.hash = "0x" ++ String.mk (hexDigits k2) ++ String.mk (hexDigits k1) then
              .ok (some request,
                some ⟨"0x" ++ String.mk (hexDigits k2) ++ String.mk (hexDigits k1),
                  .DepositInitiatedL2, k3, bn, felt_to_hex th⟩, txs)
            else .panic .assertionFailed
      else if felt_to_hex k0 = WITHDRAW_REQUEST_COMPLETED_SELECTOR then
        match request_from_event_data .WithdrawCompletedL2 (d0 :: dt) with
        | .error e => .error e
        | .ok request =>
          if request.hash = "0x" ++ String.mk (hexDigits k2) ++ String.mk (hexDigits k1) then
            .ok (some request,
              some ⟨"0x" ++ String.mk (hexDigits k2) ++ String.mk (hexDigits k1),
                .WithdrawCompletedL2, k3, bn, felt_to_hex th⟩, [])
          else .panic .assertionFailed
      else .ok (none, none, [])) := by
  simp only [get_store_data, u256_to_hex, if_neg hts]

/-
Claim C1.
-/

/-- C1 counterexample: `encodeFelt` does not return strings of one fixed total
length and is not zero-padded to the field's full bit width — the value `0`
renders as the 3-character `"0x0"` while `16` renders as the 4-character
`"0x10"`. -/
theorem C1_counterexample :
    felt_to_hex 0 = "0x0" ∧ (felt_to_hex 0).length = 3 ∧ (felt_to_hex 16).length = 4 := by
  decide

/-- C1 (amended): for every value including zero, `encodeFelt` (`felt_to_hex`)
returns a `0x`-prefixed string of lowercase hex digits with no zero-padding —
the digits are the minimal hex representation of the value (a single `0` for
zero, leading digit nonzero otherwise), so the total length varies with the
value's magnitude — and `encodeFelt` is injective over the value space. -/
theorem C1_encodeFelt_minimal_lowercase_injective (v w : Nat) :
    (felt_to_hex v).toList = '0' :: 'x' :: hexDigits v ∧
    (∀ c ∈ hexDigits v, c.isDigit = true ∨ ('a' ≤ c ∧ c ≤ 'f')) ∧
    (v ≠ 0 → ∀ c t, hexDigits v = c :: t → c ≠ '0') ∧
    (felt_to_hex v = felt_to_hex w → v = w) := by
  refine ⟨rfl, hexDigits_lower v, hexDigits_head_ne_zero v, fun h => ?_⟩
  have hdata : '0' :: 'x' :: hexDigits v = '0' :: 'x' :: hexDigits w :=
    calc '0' :: 'x' :: hexDigits v = (felt_to_hex v).toList := rfl
    _ = (felt_to_hex w).toList := congrArg String.toList h
    _ = '0' :: 'x' :: hexDigits w := rfl
  apply hexDigits_injective
  injection hdata with _ h2
  injection h2 with _ h3

/-- C1 witness: the amended statement instantiated at the concrete values 10
and 10. -/
theorem C1_witness :
    felt_to_hex 10 = "0xa" ∧
    (felt_to_hex 10).toList = '0' :: 'x' :: hexDigits 10 ∧
    (∀ c t, hexDigits 10 = c :: t → c ≠ '0') ∧
    (10 : Nat) = 10 :=
  ⟨by decide,
   (C1_encodeFelt_minimal_lowercase_injective 10 10).1,
   (C1_encodeFelt_minimal_lowercase_injective 10 10).2.2.1 (by decide),
   (C1_encodeFelt_minimal_lowercase_injective 10 10).2.2.2 rfl⟩

/-
Claim C2.
-/

/-- C2 counterexample: on the slice `[1, 2]`, `encodeU256` returns
`0x` + hex(2) + hex(1) = `"0x21"` — the hex digits of the slice's *second*
element come right after the prefix — not `0x` + hex(1) + hex(2) = `"0x12"` as
the claim's "first element is the high half" would require. -/
theorem C2_counterexample :
    u256_to_hex [1, 2] = .ok ("0x" ++ String.mk (hexDigits 2) ++ String.mk (hexDigits 1)) ∧
    u256_to_hex [1, 2] ≠ .ok ("0x" ++ String.mk (hexDigits 1) ++ String.mk (hexDigits 2)) := by
  decide

/-- C2 (amended): `encodeU256` (`u256_to_hex`) fails with
`InsufficientElements` exactly when given a slice of fewer than two elements;
for every slice of length ≥ 2 it depends only on the first two elements
(extras ignored) and returns the string `0x` + hex(high half) + hex(low half),
where the slice's *second* element is the high half and its *first* element is
the low half, the high limb rendered exactly as `encodeFelt` renders it
(prefix plus minimal digits) and the low limb appended without its own `0x`
prefix or fixed-width zero-padding (its minimal digits only). -/
theorem C2_encodeU256 (l : List Nat) :
    (l.length < 2 → u256_to_hex l = .error .InsufficientElements) ∧
    (∀ a b rest, l = a :: b :: rest →
      u256_to_hex l = .ok (felt_to_hex b ++ String.mk (hexDigits a)) ∧
      u256_to_hex l = u256_to_hex [a, b]) := by
  constructor
  · intro h
    match l, h with
    | [], _ => rfl
    | [a], _ => rfl
  · rintro a b rest rfl
    exact ⟨rfl, rfl⟩

/-- C2 witness: the amended statement instantiated at the empty slice and at
the slice `[1, 2, 3]` (whose third element is ignored). -/
theorem C2_witness :
    u256_to_hex ([] : List Nat) = .error .InsufficientElements ∧
    u256_to_hex [1, 2, 3] = .ok (felt_to_hex 2 ++ String.mk (hexDigits 1)) ∧
    u256_to_hex [1, 2, 3] = u256_to_hex [1, 2] :=
  ⟨(C2_encodeU256 []).1 (by decide),
   ((C2_encodeU256 [1, 2, 3]).2 1 2 [3] rfl).1,
   ((C2_encodeU256 [1, 2, 3]).2 1 2 [3] rfl).2⟩

/-
Claim C5.
-/

/-- C5 (confirmed): header `0` decodes to zero actions; only the WITHDRAW_AUTO
bit gives exactly `[WithdrawAuto]`; only the BURN_AUTO bit gives exactly
`[BurnAuto]`; both bits give `[WithdrawAuto, BurnAuto]` in that order; every
produced action targets Ethereum with an empty `tx_hash`; and a header that
does not fit in 128 bits fails with `HeaderOverflow`. -/
theorem C5_header_flag_decoding (h : Nat) (rh rc : String) :
    (2 ^ 128 ≤ h → get_xchain_txs h rh rc = .error .HeaderOverflow) ∧
    get_xchain_txs 0 rh rc = .ok [] ∧
    get_xchain_txs REQUEST_HEADER_WITHDRAW_AUTO rh rc
      = .ok [⟨.Ethereum, .WithdrawAuto, rh, rc, ""⟩] ∧
    get_xchain_txs REQUEST_HEADER_BURN_AUTO rh rc
      = .ok [⟨.Ethereum, .BurnAuto, rh, rc, ""⟩] ∧
    get_xchain_txs (REQUEST_HEADER_WITHDRAW_AUTO ||| REQUEST_HEADER_BURN_AUTO) rh rc
      = .ok [⟨.Ethereum, .WithdrawAuto, rh, rc, ""⟩, ⟨.Ethereum, .BurnAuto, rh, rc, ""⟩] ∧
    (∀ txs, get_xchain_txs h rh rc = .ok txs →
      ∀ tx ∈ txs, tx.chain = .Ethereum ∧ tx.tx_hash = "") := by
  refine ⟨fun hge => by simp only [get_xchain_txs]; rw [if_pos hge], rfl, rfl, rfl, rfl, ?_⟩
  intro txs htxs tx htx
  by_cases hge : 2 ^ 128 ≤ h
  · simp only [get_xchain_txs] at htxs
    rw [if_pos hge] at htxs
    exact absurd htxs (by simp)
  · simp only [get_xchain_txs] at htxs
    rw [if_neg hge] at htxs
    by_cases hW : h &&& REQUEST_HEADER_WITHDRAW_AUTO = REQUEST_HEADER_WITHDRAW_AUTO <;>
    by_cases hB : h &&& REQUEST_HEADER_BURN_AUTO = REQUEST_HEADER_BURN_AUTO <;>
      simp only [beq_iff_eq, hW, hB, if_true, if_false, List.nil_append,
        Except.ok.injEq] at htxs <;>
      rw [← htxs] at htx <;> simp at htx
    · rcases htx with rfl | rfl <;> exact ⟨rfl, rfl⟩
    · subst htx; exact ⟨rfl, rfl⟩
    · subst htx; exact ⟨rfl, rfl⟩

/-- C5 witness: the header-overflow hypothesis discharged at the concrete
header `2 ^ 128`, together with the zero-header case. -/
theorem C5_witness :
    get_xchain_txs (2 ^ 128) "a" "b" = .error .HeaderOverflow ∧
    get_xchain_txs 0 "a" "b" = .ok [] :=
  ⟨(C5_header_flag_decoding (2 ^ 128) "a" "b").1 (le_refl _),
   (C5_header_flag_decoding (2 ^ 128) "a" "b").2.1⟩

/-
Claim C6.
-/

/-- C6 (confirmed): the field layout is label-dependent with the
source/destination swap: DepositInitiated takes `chain_src = Starknet`,
`collection_src = data[4]`, `collection_dst = data[3]`, `from = data[6]`,
`to = data[5]`; WithdrawCompleted takes `chain_src = Ethereum`,
`collection_src = data[3]`, `collection_dst = data[4]`, `from = data[5]`,
`to = data[6]`; in both cases `hash = u256_to_hex (data[1..])`, which uses
only `data[1]` and `data[2]`. -/
theorem C6_field_layout (d : List Nat) (h : 7 ≤ d.length) :
    (∃ hs, u256_to_hex (d.drop 1) = .ok hs ∧
      u256_to_hex [d.getD 1 0, d.getD 2 0] = .ok hs ∧
      request_from_event_data .DepositInitiatedL2 d
        = .ok ⟨hs, .Starknet, felt_to_hex (d.getD 4 0), felt_to_hex (d.getD 3 0),
               felt_to_hex (d.getD 6 0), felt_to_hex (d.getD 5 0), contentJson d⟩) ∧
    (∃ hs, u256_to_hex (d.drop 1) = .ok hs ∧
      u256_to_hex [d.getD 1 0, d.getD 2 0] = .ok hs ∧
      request_from_event_data .WithdrawCompletedL2 d
        = .ok ⟨hs, .Ethereum, felt_to_hex (d.getD 3 0), felt_to_hex (d.getD 4 0),
               felt_to_hex (d.getD 5 0), felt_to_hex (d.getD 6 0), contentJson d⟩) := by
  obtain ⟨a, b, c, x3, x4, x5, x6, t, rfl⟩ := exists_cons7 d h
  exact ⟨⟨_, rfl, rfl, rfl⟩, ⟨_, rfl, rfl, rfl⟩⟩

/-- C6 witness: the layout theorem instantiated at `[0, 1, 2, 3, 4, 5, 6]`,
with every field evaluated. -/
theorem C6_witness :
    request_from_event_data .DepositInitiatedL2 [0, 1, 2, 3, 4, 5, 6]
      = .ok ⟨"0x21", .Starknet, "0x4", "0x3", "0x6", "0x5",
          "[\"0x0\",\"0x1\",\"0x2\",\"0x3\",\"0x4\",\"0x5\",\"0x6\"]"⟩ ∧
    request_from_event_data .WithdrawCompletedL2 [0, 1, 2, 3, 4, 5, 6]
      = .ok ⟨"0x21", .Ethereum, "0x3", "0x4", "0x5", "0x6",
          "[\"0x0\",\"0x1\",\"0x2\",\"0x3\",\"0x4\",\"0x5\",\"0x6\"]"⟩ := by
  obtain ⟨⟨hs1, hu1, _, hd1⟩, ⟨hs2, hu2, _, hd2⟩⟩ :=
    C6_field_layout [0, 1, 2, 3, 4, 5, 6] (by decide)
  have e1 : hs1 = "0x21" :=
    Except.ok.inj (hu1.symm.trans (by decide :
      u256_to_hex (([0, 1, 2, 3, 4, 5, 6] : List Nat).drop 1) = .ok "0x21"))
  have e2 : hs2 = "0x21" :=
    Except.ok.inj (hu2.symm.trans (by decide :
      u256_to_hex (([0, 1, 2, 3, 4, 5, 6] : List Nat).drop 1) = .ok "0x21"))
  rw [e1] at hd1
  rw [e2] at hd2
  rw [hd1, hd2]
  exact ⟨by decide, by decide⟩

/-
Claim C7.
-/

/-- C7 (confirmed): for the two recognized labels, `request_from_event_data`
fails with `MalformedEvent` exactly when the data sequence has fewer than 7
elements; with 7 or more it succeeds, the trailing elements beyond index 6
leave every layout field unchanged (the request agrees field-by-field with the
one decoded from the first 7 elements alone), and the full sequence — header
at index 0 included — appears in order in the request's content JSON array. -/
theorem C7_malformed_iff (lbl : EventLabel) (data : List Nat)
    (hl : lbl = .DepositInitiatedL2 ∨ lbl = .WithdrawCompletedL2) :
    (request_from_event_data lbl data = .error .MalformedEvent ↔ data.length < 7) ∧
    (7 ≤ data.length → ∃ r r7,
      request_from_event_data lbl data = .ok r ∧
      request_from_event_data lbl (data.take 7) = .ok r7 ∧
      r.content = contentJson data ∧
      r.hash = r7.hash ∧ r.chain_src = r7.chain_src ∧
      r.collection_src = r7.collection_src ∧ r.collection_dst = r7.collection_dst ∧
      r.«from» = r7.«from» ∧ r.«to» = r7.«to») := by
  constructor
  · constructor
    · intro herr
      by_contra hlen
      obtain ⟨a, b, c, x3, x4, x5, x6, t, rfl⟩ := exists_cons7 data (by omega)
      rcases hl with rfl | rfl <;> simp [request_from_event_data, u256_to_hex] at herr
    · exact rfed_short lbl data
  · intro h7
    obtain ⟨a, b, c, x3, x4, x5, x6, t, rfl⟩ := exists_cons7 data h7
    rcases hl with rfl | rfl
    · exact ⟨_, _, rfl, rfl, rfl, rfl, rfl, rfl, rfl, rfl, rfl⟩
    · exact ⟨_, _, rfl, rfl, rfl, rfl, rfl, rfl, rfl, rfl, rfl⟩

/-- C7 witness: the iff instantiated at a 3-element sequence (malformed) and a
7-element sequence (well-formed). -/
theorem C7_witness :
    request_from_event_data .DepositInitiatedL2 [0, 0, 0] = .error .MalformedEvent ∧
    request_from_event_data .WithdrawCompletedL2 [0, 1, 2, 3, 4, 5, 6]
      ≠ .error .MalformedEvent := by
  constructor
  · exact (C7_malformed_iff .DepositInitiatedL2 [0, 0, 0] (Or.inl rfl)).1.mpr (by decide)
  · intro hc
    have hlt := (C7_malformed_iff .WithdrawCompletedL2 [0, 1, 2, 3, 4, 5, 6]
      (Or.inr rfl)).1.mp hc
    exact absurd hlt (by decide)

/-
Claim C3.
-/

/-- C3 (confirmed): for any raw event of the minimum shape (at least 4 keys,
at least 1 data element, timestamp fitting the 64-bit conversion) whose
`key[0]` matches neither recognized discriminant, `get_store_data` returns
exactly `(none, none, [])` — not an error, no request, no audit event, no
outbound actions. -/
theorem C3_unrecognized_discriminant_no_op (e : EmittedEvent)
    (hk : 4 ≤ e.keys.length) (hd : 1 ≤ e.data.length)
    (ht : e.keys.getD 3 0 < 2 ^ 64)
    (h1 : felt_to_hex (e.keys.getD 0 0) ≠ DEPOSIT_REQUEST_INITIATED_SELECTOR)
    (h2 : felt_to_hex (e.keys.getD 0 0) ≠ WITHDRAW_REQUEST_COMPLETED_SELECTOR) :
    get_store_data e = .ok (none, none, []) := by
  obtain ⟨keys, data, bn, th⟩ := e
  obtain ⟨k0, k1, k2, k3, kt, rfl⟩ := exists_cons4 keys hk
  obtain ⟨d0, dt, rfl⟩ : ∃ d0 dt, data = d0 :: dt := by
    rcases data with _ | ⟨d0, dt⟩
    · simp at hd
    · exact ⟨d0, dt, rfl⟩
  simp only [List.getD_cons_succ, List.getD_cons_zero] at ht h1 h2
  rw [gsd_eval k0 k1 k2 k3 kt d0 dt bn th (Nat.not_le.mpr ht), if_neg h1, if_neg h2]

/-- C3 witness: the theorem applied to a concrete well-shaped event whose
discriminant `5` is unrecognized. -/
theorem C3_witness :
    get_store_data ⟨[5, 1, 2, 3], [0], 0, 0⟩ = .ok (none, none, []) :=
  C3_unrecognized_discriminant_no_op ⟨[5, 1, 2, 3], [0], 0, 0⟩
    (by decide) (by decide) (by decide) (by decide) (by decide)

/-
Claim C10.
-/

/-- C10 (confirmed): for every raw event of the minimum shape, recognized or
not, `get_store_data` fails when the block timestamp `keys[3]` does not fit
the audit event's 64-bit timestamp integer: the conversion sits before the
discriminant dispatch, so an out-of-range timestamp prevents even the
`(none, none, [])` result for unrecognized events. -/
theorem C10_timestamp_overflow_before_dispatch (e : EmittedEvent)
    (hk : 4 ≤ e.keys.length) (hd : 1 ≤ e.data.length)
    (ht : 2 ^ 64 ≤ e.keys.getD 3 0) :
    get_store_data e = .error .TimestampOverflow := by
  obtain ⟨keys, data, bn, th⟩ := e
  obtain ⟨k0, k1, k2, k3, kt, rfl⟩ := exists_cons4 keys hk
  obtain ⟨d0, dt, rfl⟩ : ∃ d0 dt, data = d0 :: dt := by
    rcases data with _ | ⟨d0, dt⟩
    · simp at hd
    · exact ⟨d0, dt, rfl⟩
  simp only [List.getD_cons_succ, List.getD_cons_zero] at ht
  exact gsd_eval_ts k0 k1 k2 k3 kt d0 dt bn th ht

/-- C10 witness: a concrete unrecognized event whose timestamp key is exactly
`2 ^ 64` fails with the timestamp conversion error. -/
theorem C10_witness :
    get_store_data ⟨[5, 1, 2, 0x10000000000000000], [0], 0, 0⟩
      = .error .TimestampOverflow :=
  C10_timestamp_overflow_before_dispatch ⟨[5, 1, 2, 0x10000000000000000], [0], 0, 0⟩
    (by decide) (by decide) (by decide)

/-
Claim C8.
-/

/-- C8 (confirmed): every raw event carrying the WithdrawCompleted
discriminant that decodes successfully yields an empty outbound-action list,
whatever the header field `data[0]` holds, and the header flag decoder is
never invoked for this label — in particular `get_store_data` can never
return `HeaderOverflow` for it. -/
theorem C8_withdraw_produces_no_txs (e : EmittedEvent)
    (hsel : felt_to_hex (e.keys.getD 0 0) = WITHDRAW_REQUEST_COMPLETED_SELECTOR) :
    (∀ r ev txs, get_store_data e = .ok (r, ev, txs) → txs = []) ∧
    get_store_data e ≠ .error .HeaderOverflow := by
  obtain ⟨keys, data, bn, th⟩ := e
  rcases keys with _ | ⟨k0, _ | ⟨k1, _ | ⟨k2, _ | ⟨k3, kt⟩⟩⟩⟩
  · simp [List.getD] at hsel
    exact absurd hsel (by decide)
  · refine ⟨fun r ev txs hok =>
      absurd ((gsd_keys1 k0 data bn th).symm.trans hok) (by simp), ?_⟩
    rw [gsd_keys1]
    simp
  · refine ⟨fun r ev txs hok =>
      absurd ((gsd_keys2 k0 k1 data bn th).symm.trans hok) (by simp), ?_⟩
    rw [gsd_keys2]
    simp
  · refine ⟨fun r ev txs hok =>
      absurd ((gsd_keys3 k0 k1 k2 data bn th).symm.trans hok) (by simp), ?_⟩
    rw [gsd_keys3]
    simp
  · simp only [List.getD_cons_succ, List.getD_cons_zero] at hsel
    have hD : felt_to_hex k0 ≠ DEPOSIT_REQUEST_INITIATED_SELECTOR := by
      rw [hsel]
      exact selectors_distinct
    rcases data with _ | ⟨d0, dt⟩
    · refine ⟨fun r ev txs hok =>
        absurd ((gsd_data0 k0 k1 k2 k3 kt bn th).symm.trans hok) (by simp), ?_⟩
      rw [gsd_data0]
      simp
    · by_cases hts : 2 ^ 64 ≤ k3
      · refine ⟨fun r ev txs hok =>
          absurd ((gsd_eval_ts k0 k1 k2 k3 kt d0 dt bn th hts).symm.trans hok) (by simp), ?_⟩
        rw [gsd_eval_ts k0 k1 k2 k3 kt d0 dt bn th hts]
        simp
      · have hg0 := gsd_eval k0 k1 k2 k3 kt d0 dt bn th hts
        rw [if_neg hD, if_pos hsel] at hg0
        cases hreq : request_from_event_data .WithdrawCompletedL2 (d0 :: dt) with
        | error er =>
          simp only [hreq] at hg0
          refine ⟨fun r ev txs hok => absurd (hg0.symm.trans hok) (by simp), ?_⟩
          rw [hg0]
          intro hc
          injection hc with he
          exact rfed_ne_headerOverflow _ _ (he ▸ hreq)
        | ok r' =>
          simp only [hreq] at hg0
          by_cases hh : r'.hash = "0x" ++ String.mk (hexDigits k2) ++ String.mk (hexDigits k1)
          · rw [if_pos hh] at hg0
            refine ⟨fun r ev txs hok => ?_, by rw [hg0]; simp⟩
            have h2 := hg0.symm.trans hok
            injection h2 with hp
            have h3 := congrArg (fun p => p.2.2) hp
            simpa using h3.symm
          · rw [if_neg hh] at hg0
            refine ⟨fun r ev txs hok => absurd (hg0.symm.trans hok) (by simp), ?_⟩
            rw [hg0]
            simp

/-- C8 witness: a concrete WithdrawCompleted event whose header field is
`2 ^ 200` (far beyond 128 bits) still decodes to a result with an empty
outbound-action list and does not produce `HeaderOverflow`. -/
theorem C8_witness :
    get_store_data ⟨[0x132aab9714c265c8ad151ce006bb91691100722ddec42e7ee96dc9dfa9e741c,
        1, 2, 5], [0x100000000000000000000000000000000000000000000000000, 1, 2, 0, 0, 0, 0],
        9, 3⟩
      = .ok (some ⟨"0x21", .Ethereum, "0x0", "0x0", "0x0", "0x0",
          "[\"0x100000000000000000000000000000000000000000000000000\",\"0x1\",\"0x2\",\"0x0\",\"0x0\",\"0x0\",\"0x0\"]"⟩,
        some ⟨"0x21", .WithdrawCompletedL2, 5, 9, "0x3"⟩, []) ∧
    get_store_data ⟨[0x132aab9714c265c8ad151ce006bb91691100722ddec42e7ee96dc9dfa9e741c,
        1, 2, 5], [0x100000000000000000000000000000000000000000000000000, 1, 2, 0, 0, 0, 0],
        9, 3⟩ ≠ .error .HeaderOverflow :=
  ⟨by decide,
   (C8_withdraw_produces_no_txs
     ⟨[0x132aab9714c265c8ad151ce006bb91691100722ddec42e7ee96dc9dfa9e741c,
       1, 2, 5], [0x100000000000000000000000000000000000000000000000000, 1, 2, 0, 0, 0, 0],
       9, 3⟩ (by decide)).2⟩

/-
Claim C4.
-/

/-- C4 (confirmed): whenever `get_store_data` completes normally with a
request, that request's `hash` equals `u256_to_hex` of `keys[1..3]` (the
key-derived hash); and for a recognized, well-shaped event whose data-derived
hash `u256_to_hex (data[1..])` disagrees with the key-derived hash
`u256_to_hex (keys[1..])`, the call dies on the `assert_eq!` (the fatal
hash-mismatch path) instead of returning. -/
theorem C4_hash_invariant (e : EmittedEvent) (req : Request) (ev : Option Event)
    (txs : List CrossChainTx) :
    (get_store_data e = .ok (some req, ev, txs) →
      u256_to_hex [e.keys.getD 1 0, e.keys.getD 2 0] = .ok req.hash) ∧
    ((felt_to_hex (e.keys.getD 0 0) = DEPOSIT_REQUEST_INITIATED_SELECTOR ∨
      felt_to_hex (e.keys.getD 0 0) = WITHDRAW_REQUEST_COMPLETED_SELECTOR) →
     4 ≤ e.keys.length → 7 ≤ e.data.length →
     e.keys.getD 3 0 < 2 ^ 64 → e.data.getD 0 0 < 2 ^ 128 →
     u256_to_hex (e.data.drop 1) ≠ u256_to_hex (e.keys.drop 1) →
     get_store_data e = .panic .assertionFailed) := by
  obtain ⟨keys, data, bn, th⟩ := e
  constructor
  · intro hok
    rcases keys with _ | ⟨k0, _ | ⟨k1, _ | ⟨k2, _ | ⟨k3, kt⟩⟩⟩⟩
    · rw [gsd_keys0] at hok
      exact absurd hok (by simp)
    · rw [gsd_keys1] at hok
      exact absurd hok (by simp)
    · rw [gsd_keys2] at hok
      exact absurd hok (by simp)
    · rw [gsd_keys3] at hok
      exact absurd hok (by simp)
    · rcases data with _ | ⟨d0, dt⟩
      · rw [gsd_data0] at hok
        exact absurd hok (by simp)
      · by_cases hts : 2 ^ 64 ≤ k3
        · rw [gsd_eval_ts k0 k1 k2 k3 kt d0 dt bn th hts] at hok
          exact absurd hok (by simp)
        · rw [gsd_eval k0 k1 k2 k3 kt d0 dt bn th hts] at hok
          simp only [List.getD_cons_succ, List.getD_cons_zero]
          by_cases hD : felt_to_hex k0 = DEPOSIT_REQUEST_INITIATED_SELECTOR
          · rw [if_pos hD] at hok
            cases hreq : request_from_event_data .DepositInitiatedL2 (d0 :: dt) with
            | error er =>
              simp only [hreq] at hok
              exact absurd hok (by simp)
            | ok r' =>
              simp only [hreq] at hok
              cases hx : get_xchain_txs d0 r'.hash r'.content with
              | error er =>
                simp only [hx] at hok
                exact absurd hok (by simp)
              | ok txs' =>
                simp only [hx] at hok
                by_cases hh : r'.hash
                    = "0x" ++ String.mk (hexDigits k2) ++ String.mk (hexDigits k1)
                · rw [if_pos hh] at hok
                  simp only [Outcome.ok.injEq, Prod.mk.injEq, Option.some.injEq] at hok
                  obtain ⟨hr, -, -⟩ := hok
                  subst hr
                  rw [hh]
                  exact rfl
                · rw [if_neg hh] at hok
                  exact absurd hok (by simp)
          · rw [if_neg hD] at hok
            by_cases hW : felt_to_hex k0 = WITHDRAW_REQUEST_COMPLETED_SELECTOR
            · rw [if_pos hW] at hok
              cases hreq : request_from_event_data .WithdrawCompletedL2 (d0 :: dt) with
              | error er =>
                simp only [hreq] at hok
                exact absurd hok (by simp)
              | ok r' =>
                simp only [hreq] at hok
                by_cases hh : r'.hash
                    = "0x" ++ String.mk (hexDigits k2) ++ String.mk (hexDigits k1)
                · rw [if_pos hh] at hok
                  simp only [Outcome.ok.injEq, Prod.mk.injEq, Option.some.injEq] at hok
                  obtain ⟨hr, -, -⟩ := hok
                  subst hr
                  rw [hh]
                  exact rfl
                · rw [if_neg hh] at hok
                  exact absurd hok (by simp)
            · rw [if_neg hW] at hok
              exact absurd hok (by simp)
  · rintro hsel hk hd ht hh0 hne
    obtain ⟨k0, k1, k2, k3, kt, rfl⟩ := exists_cons4 keys hk
    obtain ⟨d0, d1, d2, d3, d4, d5, d6, dt, rfl⟩ := exists_cons7 data hd
    simp only [List.getD_cons_succ, List.getD_cons_zero] at hsel ht hh0
    have hKhash :
        u256_to_hex ((k0 :: k1 :: k2 :: k3 :: kt).drop 1)
          = .ok ("0x" ++ String.mk (hexDigits k2) ++ String.mk (hexDigits k1)) := rfl
    rw [gsd_eval k0 k1 k2 k3 kt d0 (d1 :: d2 :: d3 :: d4 :: d5 :: d6 :: dt) bn th
      (Nat.not_le.mpr ht)]
    rcases hsel with hD | hW
    · rw [if_pos hD]
      obtain ⟨rdep, hreq, hhash⟩ := rfed_hash .DepositInitiatedL2 (Or.inl rfl)
        (d0 :: d1 :: d2 :: d3 :: d4 :: d5 :: d6 :: dt) (by simp)
      have hRne : rdep.hash ≠ "0x" ++ String.mk (hexDigits k2) ++ String.mk (hexDigits k1) := by
        intro hceq
        apply hne
        calc u256_to_hex ((d0 :: d1 :: d2 :: d3 :: d4 :: d5 :: d6 :: dt).drop 1)
            = .ok rdep.hash := hhash
          _ = .ok ("0x" ++ String.mk (hexDigits k2) ++ String.mk (hexDigits k1)) := by
              rw [hceq]
          _ = u256_to_hex ((k0 :: k1 :: k2 :: k3 :: kt).drop 1) := hKhash.symm
      simp only [hreq]
      obtain ⟨txs', hx⟩ : ∃ txs', get_xchain_txs d0 rdep.hash rdep.content = .ok txs' := by
        simp only [get_xchain_txs, if_neg (Nat.not_le.mpr hh0)]
        exact ⟨_, rfl⟩
      simp only [hx]
      rw [if_neg hRne]
    · rw [if_neg (by rw [hW]; exact selectors_distinct), if_pos hW]
      obtain ⟨rwd, hreq, hhash⟩ := rfed_hash .WithdrawCompletedL2 (Or.inr rfl)
        (d0 :: d1 :: d2 :: d3 :: d4 :: d5 :: d6 :: dt) (by simp)
      have hRne : rwd.hash ≠ "0x" ++ String.mk (hexDigits k2) ++ String.mk (hexDigits k1) := by
        intro hceq
        apply hne
        calc u256_to_hex ((d0 :: d1 :: d2 :: d3 :: d4 :: d5 :: d6 :: dt).drop 1)
            = .ok rwd.hash := hhash
          _ = .ok ("0x" ++ String.mk (hexDigits k2) ++ String.mk (hexDigits k1)) := by
              rw [hceq]
          _ = u256_to_hex ((k0 :: k1 :: k2 :: k3 :: kt).drop 1) := hKhash.symm
      simp only [hreq]
      rw [if_neg hRne]

/-- C4 witness: the normal-completion direction evaluated on a concrete
matching deposit event, and the mismatch direction on the same event with a
corrupted data payload (data-derived hash `0x99` against key-derived hash
`0x21`), which dies on the assertion. -/
theorem C4_witness :
    u256_to_hex [(1 : Nat), 2] = .ok "0x21" ∧
    get_store_data ⟨[0x1682ccdc90fbee2d6cc3e930539cb4ca29390a438db1c2e4c7d493e01a61abb,
        1, 2, 100], [0, 9, 9, 3, 4, 5, 6], 7, 0xabc⟩ = .panic .assertionFailed := by
  constructor
  · have h := (C4_hash_invariant
      ⟨[0x1682ccdc90fbee2d6cc3e930539cb4ca29390a438db1c2e4c7d493e01a61abb,
        1, 2, 100], [0, 1, 2, 3, 4, 5, 6], 7, 0xabc⟩
      ⟨"0x21", .Starknet, "0x4", "0x3", "0x6", "0x5",
        "[\"0x0\",\"0x1\",\"0x2\",\"0x3\",\"0x4\",\"0x5\",\"0x6\"]"⟩
      (some ⟨"0x21", .DepositInitiatedL2, 100, 7, "0xabc"⟩) []).1 (by decide)
    simpa using h
  · exact (C4_hash_invariant
      ⟨[0x1682ccdc90fbee2d6cc3e930539cb4ca29390a438db1c2e4c7d493e01a61abb,
        1, 2, 100], [0, 9, 9, 3, 4, 5, 6], 7, 0xabc⟩
      ⟨"0x21", .Starknet, "0x4", "0x3", "0x6", "0x5", "x"⟩ none []).2
      (Or.inl (by decide)) (by decide) (by decide) (by decide) (by decide) (by decide)

/-
Claim C9.
-/

/-- C9 counterexample: the event with `keys = [1, 2]` and empty data violates
the claimed precondition `keys.len ≥ 4 ∧ data.len ≥ 1`, yet `get_store_data`
does not hit any out-of-bounds indexing on it — `u256_to_hex` fails with
`InsufficientElements` before `keys[3]` or `data[0]` is ever read, so the
claimed precondition is not necessary for totality. -/
theorem C9_counterexample :
    get_store_data ⟨[1, 2], [], 0, 0⟩ = .error .InsufficientElements ∧
    get_store_data ⟨[1, 2], [], 0, 0⟩ ≠ .panic .indexOutOfBounds ∧
    ¬(4 ≤ ([1, 2] : List Nat).length ∧ 1 ≤ ([] : List Nat).length) := by
  decide

/-- C9 (amended): `get_store_data` avoids out-of-bounds indexing exactly when
either `keys.len ≥ 4 ∧ data.len ≥ 1` (the reads of `keys[1..]`, `keys[3]` and
`data[0]` all happen before the discriminant dispatch, so this applies to
unrecognized discriminants too) or `keys.len ∈ {1, 2}`, in which case
`u256_to_hex (keys[1..])` returns `InsufficientElements` before `keys[3]` or
`data[0]` is read. -/
theorem C9_no_oob_iff (e : EmittedEvent) :
    get_store_data e ≠ .panic .indexOutOfBounds ↔
      (4 ≤ e.keys.length ∧ 1 ≤ e.data.length) ∨
      e.keys.length = 1 ∨ e.keys.length = 2 := by
  obtain ⟨keys, data, bn, th⟩ := e
  rcases keys with _ | ⟨k0, _ | ⟨k1, _ | ⟨k2, _ | ⟨k3, kt⟩⟩⟩⟩
  · rw [gsd_keys0]
    simp
  · rw [gsd_keys1]
    simp
  · rw [gsd_keys2]
    simp
  · rw [gsd_keys3]
    simp
  · rcases data with _ | ⟨d0, dt⟩
    · rw [gsd_data0]
      constructor
      · intro hc
        exact absurd rfl hc
      · rintro (⟨-, h2⟩ | h | h)
        · simp at h2
        · simp only [List.length_cons] at h
          omega
        · simp only [List.length_cons] at h
          omega
    · refine iff_of_true ?_ (Or.inl ⟨by simp, by simp⟩)
      by_cases hts : 2 ^ 64 ≤ k3
      · rw [gsd_eval_ts k0 k1 k2 k3 kt d0 dt bn th hts]
        simp
      · rw [gsd_eval k0 k1 k2 k3 kt d0 dt bn th hts]
        split
        · split
          · simp
          · split
            · simp
            · split <;> simp
        · split
          · split
            · simp
            · split <;> simp
          · simp

end Starklane
